import Mathlib

/-!
Verification of the session-continuity shim (`ImplicitSessionService`,
`src/fraud-agent/implicit_session_service.py`) and the `publish_record`
tool (`src/fraud-agent/agent/agent.py`).

The underlying session store (`google.adk.sessions.BaseSessionService`)
is an external collaborator; it is embedded here in two ways:
* an abstract record of stateful, fallible operations
  (`BaseSessionService`), over which the shim's structural properties
  (pass-through, error propagation, independence of `session_id`) are
  proved for every possible store, and
* a concrete in-memory store (`memService`), modelled from the spec's
  capability surface (spec section 6), over which the store-dependent
  properties (totality, selection of the first listed session, creation,
  idempotence, delete-then-get) are proved.

Stateful Python coroutines become explicit state passing (`σ` is the
store's state); exceptions become `Except StoreError`.
-/

namespace FraudAgent

/-- One conversational event of a session's ordered history.  The shim
never inspects the contents of an event, so the payload is opaque. -/
structure Event where
  author : String
  content : String
deriving DecidableEq, Repr

/-- A session, keyed by (application name, user id, session id), owning an
opaque state mapping and an ordered event history. -/
structure Session where
  app_name : String
  user_id : String
  id : String
  state : List (String × String)
  events : List Event
deriving DecidableEq, Repr

/-- The response object returned by `list_sessions`: a list of session
summaries. -/
structure ListSessionsResponse where
  sessions : List Session
deriving DecidableEq, Repr

/-- Errors a session store can raise: the distinguished not-found
condition of `get_session`, and any other store-level failure
(network/auth/quota), carrying a message. -/
inductive StoreError where
  | notFound
  | storeFailure (msg : String)
deriving DecidableEq, Repr

/-- The capability surface of a session store
(`google.adk.sessions.BaseSessionService`): create/get/list/delete and
append-event, each a stateful, fallible operation on the store state `σ`.
`χ` is the type of the opaque `config` argument of `get_session`. -/
structure BaseSessionService (σ χ : Type) where
  create_session : String → String → Option (List (String × String)) →
    Option String → σ → Except StoreError (Session × σ)
  get_session : String → String → String → Option χ → σ →
    Except StoreError (Session × σ)
  list_sessions : String → String → σ →
    Except StoreError (ListSessionsResponse × σ)
  delete_session : String → String → String → σ →
    Except StoreError (Unit × σ)
  append_event : Session → Event → σ → Except StoreError (Event × σ)

/-- The shim: it holds the proxied store
(`ImplicitSessionService._proxied_service` in the source). -/
structure ImplicitSessionService (σ χ : Type) where
  proxied_service : BaseSessionService σ χ

/-- A Python value passed as the `proxied_service` constructor argument:
either an instance of `BaseSessionService` or anything else (Python is
dynamically typed, so the constructor must check at runtime). -/
inductive PyValue (σ χ : Type) where
  | service (svc : BaseSessionService σ χ)
  | other (desc : String)

/-- A Python exception raised by the shim's constructor. -/
inductive PyError where
  | typeError (msg : String)
deriving DecidableEq, Repr

/-- `ImplicitSessionService.__init__`: raises `TypeError` unless the
argument is an instance of `BaseSessionService`; otherwise stores it as
the delegate. -/
def ImplicitSessionService.init (proxied : PyValue σ χ) :
    Except PyError (ImplicitSessionService σ χ) :=
  match proxied with
  | .service svc => .ok ⟨svc⟩
  | .other _ =>
      .error (.typeError "proxied_service must be an instance of BaseSessionService")

/-- `ImplicitSessionService.get_session`: list the user's sessions via the
proxied store; if the listing is non-empty, fetch the first listed
session in full from the store; otherwise create a new session with
empty state (`state=None`, no `session_id`).  The caller-supplied
`session_id` is never read. -/
def ImplicitSessionService.get_session (self : ImplicitSessionService σ χ)
    (app_name user_id session_id : String) (config : Option χ) (st : σ) :
    Except StoreError (Session × σ) :=
  match self.proxied_service.list_sessions app_name user_id st with
  | .error e => .error e
  | .ok (sessions_list, st1) =>
    match sessions_list.sessions with
    | existing :: _ =>
        self.proxied_service.get_session app_name user_id existing.id config st1
    | [] =>
        self.proxied_service.create_session app_name user_id none none st1

/-- `ImplicitSessionService.create_session`: pass-through to the store. -/
def ImplicitSessionService.create_session (self : ImplicitSessionService σ χ)
    (app_name user_id : String) (state : Option (List (String × String)))
    (session_id : Option String) (st : σ) : Except StoreError (Session × σ) :=
  self.proxied_service.create_session app_name user_id state session_id st

/-- `ImplicitSessionService.list_sessions`: pass-through to the store. -/
def ImplicitSessionService.list_sessions (self : ImplicitSessionService σ χ)
    (app_name user_id : String) (st : σ) :
    Except StoreError (ListSessionsResponse × σ) :=
  self.proxied_service.list_sessions app_name user_id st

/-- `ImplicitSessionService.delete_session`: pass-through to the store. -/
def ImplicitSessionService.delete_session (self : ImplicitSessionService σ χ)
    (app_name user_id session_id : String) (st : σ) :
    Except StoreError (Unit × σ) :=
  self.proxied_service.delete_session app_name user_id session_id st

/-- `ImplicitSessionService.append_event`: pass-through to the store. -/
def ImplicitSessionService.append_event (self : ImplicitSessionService σ χ)
    (session : Session) (event : Event) (st : σ) :
    Except StoreError (Event × σ) :=
  self.proxied_service.append_event session event st

/-! ### In-memory session store, modelled from the spec (section 6) -/

/-- The state of the in-memory store: the sessions in creation order, and
a counter for generating fresh session identifiers. -/
structure MemStore where
  sessions : List Session
  next_id : Nat
deriving DecidableEq, Repr

/-- A store-generated session identifier. -/
def genId (n : Nat) : String := "session-" ++ toString n

/-- Whether a session belongs to the given (application, user) pair. -/
def sameUser (app_name user_id : String) (s : Session) : Bool :=
  s.app_name == app_name && s.user_id == user_id

/-- Whether a session is the one keyed by the given
(application, user, session id) triple. -/
def sameSession (app_name user_id session_id : String) (s : Session) : Bool :=
  s.app_name == app_name && s.user_id == user_id && s.id == session_id

/-- The partial view of a session returned by listing: identity only, no
state and no event history. -/
def summarize (s : Session) : Session :=
  { s with state := [], events := [] }

/-- Modelled from the spec: the external `SessionStore` collaborator
(spec section 6), absent from the repository's sources.  `createSession`
allocates a fresh identifier when none is supplied and an empty state when
none is supplied; `getSession` fails with `notFound` if the triple is
absent; `listSessions` returns identity-only summaries in creation order;
`deleteSession` removes the addressed session; `appendEvent` appends one
event to the addressed session's history. -/
def memService (χ : Type) : BaseSessionService MemStore χ where
  create_session := fun app user state sid ms =>
    let sess : Session :=
      { app_name := app, user_id := user,
        id := sid.getD (genId ms.next_id),
        state := state.getD [], events := [] }
    .ok (sess, { sessions := ms.sessions ++ [sess], next_id := ms.next_id + 1 })
  get_session := fun app user sid _cfg ms =>
    match ms.sessions.find? (sameSession app user sid) with
    | some sess => .ok (sess, ms)
    | none => .error .notFound
  list_sessions := fun app user ms =>
    .ok (⟨(ms.sessions.filter (sameUser app user)).map summarize⟩, ms)
  delete_session := fun app user sid ms =>
    .ok ((), { ms with
               sessions := ms.sessions.filter
                 (fun s => !(sameSession app user sid s)) })
  append_event := fun sess ev ms =>
    match ms.sessions.find? (sameSession sess.app_name sess.user_id sess.id) with
    | some _ =>
        .ok (ev, { ms with
                   sessions := ms.sessions.map (fun s =>
                     if sameSession sess.app_name sess.user_id sess.id s then
                       { s with events := s.events ++ [ev] }
                     else s) })
    | none => .error .notFound

/-- The shim wrapped around the in-memory store. -/
def memShim : ImplicitSessionService MemStore String :=
  ⟨memService String⟩

/-! ### Helper lemmas -/

lemma sameUser_of_sameSession {app user sid : String} {s : Session}
    (h : sameSession app user sid s = true) : sameUser app user s = true := by
  simp only [sameSession, sameUser, Bool.and_eq_true] at h ⊢
  exact h.1

lemma find?_session_none {app user : String} {l : List Session}
    (h : l.filter (sameUser app user) = []) (sid : String) :
    l.find? (sameSession app user sid) = none := by
  refine List.find?_eq_none.mpr fun x hx hpx => ?_
  exact (List.filter_eq_nil_iff.mp h) x hx (sameUser_of_sameSession hpx)

lemma find?_append_right {p : Session → Bool} {l1 l2 : List Session}
    (h : l1.find? p = none) : (l1 ++ l2).find? p = l2.find? p := by
  rw [List.find?_append, h, Option.none_or]

lemma find?_first_listed {app user : String} {l : List Session} {f : Session}
    {rest : List Session} (h : l.filter (sameUser app user) = f :: rest) :
    ∃ g, l.find? (sameSession app user f.id) = some g ∧
      g.app_name = app ∧ g.user_id = user ∧ g.id = f.id ∧ g ∈ l := by
  have hf : f ∈ l.filter (sameUser app user) := h ▸ List.mem_cons_self f rest
  have hmem : f ∈ l := List.mem_of_mem_filter hf
  have hu : sameUser app user f = true := List.of_mem_filter hf
  simp only [sameUser, Bool.and_eq_true, beq_iff_eq] at hu
  have hsome : (l.find? (sameSession app user f.id)).isSome := by
    refine List.find?_isSome.mpr ⟨f, hmem, ?_⟩
    simp [sameSession, hu.1, hu.2]
  obtain ⟨g, hg⟩ := Option.isSome_iff_exists.mp hsome
  have hpg := List.find?_some hg
  have hgmem := List.mem_of_find?_eq_some hg
  simp only [sameSession, Bool.and_eq_true, beq_iff_eq] at hpg
  exact ⟨g, hg, hpg.1.1, hpg.1.2, hpg.2, hgmem⟩

lemma memShim_get_of_filter_nil {ms : MemStore} {app user : String}
    (sid : String) (cfg : Option String)
    (h : ms.sessions.filter (sameUser app user) = []) :
    memShim.get_session app user sid cfg ms =
      (memService String).create_session app user none none ms := by
  simp [memShim, ImplicitSessionService.get_session, memService, h]

lemma memShim_get_of_filter_cons {ms : MemStore} {app user : String}
    (sid : String) (cfg : Option String) {f : Session} {rest : List Session}
    (h : ms.sessions.filter (sameUser app user) = f :: rest) :
    memShim.get_session app user sid cfg ms =
      (memService String).get_session app user f.id cfg ms := by
  simp [memShim, ImplicitSessionService.get_session, memService, h, summarize]

/-! ### Concrete stores used by witnesses -/

/-- The spec's "bob" scenario: two sessions for (fraud, bob), "s1" created
first, "s2" second; "s1" has one event of history. -/
def bobStore : MemStore :=
  { sessions :=
      [ { app_name := "fraud", user_id := "bob", id := "s1", state := [],
          events := [{ author := "user", content := "hi" }] },
        { app_name := "fraud", user_id := "bob", id := "s2", state := [],
          events := [] } ],
    next_id := 2 }

/-- A store holding no sessions at all. -/
def aliceStore0 : MemStore := { sessions := [], next_id := 0 }

/-! ### Claim theorems -/

/-- C1: for every store state and every (application, user, session_id,
config) input, `get_session` on the shim over the spec-modelled store
returns `Except.ok` — it is total, and in particular never surfaces the
`StoreError.notFound` condition: a non-empty listing leads to a successful
full fetch of the first listed session, an empty listing to a successful
creation.  (The shim raises no error of its own on any path, so on a
store that can fail, the only failures it surfaces are the store's; see
the error-propagation theorem.) -/
theorem get_session_total_never_notFound :
    ∀ (ms : MemStore) (app user sid : String) (cfg : Option String),
      ∃ sess ms', memShim.get_session app user sid cfg ms =
        Except.ok (sess, ms') := by
  intro ms app user sid cfg
  cases h : ms.sessions.filter (sameUser app user) with
  | nil =>
      rw [memShim_get_of_filter_nil sid cfg h]
      exact ⟨_, _, rfl⟩
  | cons f rest =>
      rw [memShim_get_of_filter_cons sid cfg h]
      obtain ⟨g, hg, -, -, -, -⟩ := find?_first_listed h
      exact ⟨g, ms, by simp [memService, hg]⟩

/-- C2: whenever the store's listing for (application, user) is non-empty,
`get_session` on the shim returns the session whose identifier equals the
identifier of the first entry of `list_sessions`, and that session is the
result of a full `get_session` fetch from the store (event history
populated, not the bare listing summary). -/
theorem get_session_returns_first_listed (ms : MemStore)
    (app user sid : String) (cfg : Option String) (first : Session)
    (rest : List Session)
    (h : (memService String).list_sessions app user ms =
      Except.ok (⟨first :: rest⟩, ms)) :
    ∃ sess, memShim.get_session app user sid cfg ms = Except.ok (sess, ms) ∧
      (memService String).get_session app user first.id cfg ms =
        Except.ok (sess, ms) ∧
      sess.id = first.id := by
  have hl : (ms.sessions.filter (sameUser app user)).map summarize =
      first :: rest := by
    simpa [memService] using h
  cases hf : ms.sessions.filter (sameUser app user) with
  | nil => rw [hf] at hl; simp at hl
  | cons f rest' =>
      rw [hf] at hl
      simp only [List.map_cons, List.cons.injEq] at hl
      have hid : first.id = f.id := by rw [← hl.1]; rfl
      obtain ⟨g, hg, -, -, hgid, -⟩ := find?_first_listed hf
      refine ⟨g, ?_, ?_, ?_⟩
      · rw [memShim_get_of_filter_cons sid cfg hf]
        simp [memService, hg]
      · rw [hid]
        simp [memService, hg]
      · rw [hid, hgid]

/-- Witness for C2 at the spec's "bob" scenario: the store holds "s1"
(created first, with history) and "s2"; `get_session` returns the full
record for "s1", ignoring "s2". -/
theorem get_session_returns_first_listed_witness :
    (memService String).list_sessions "fraud" "bob" bobStore =
      Except.ok
        (⟨[{ app_name := "fraud", user_id := "bob", id := "s1",
             state := [], events := [] },
           { app_name := "fraud", user_id := "bob", id := "s2",
             state := [], events := [] }]⟩, bobStore) ∧
    (∃ sess, memShim.get_session "fraud" "bob" "ignored" none bobStore =
        Except.ok (sess, bobStore) ∧
      (memService String).get_session "fraud" "bob" "s1" none bobStore =
        Except.ok (sess, bobStore) ∧
      sess.id = "s1") :=
  ⟨rfl,
   get_session_returns_first_listed bobStore "fraud" "bob" "ignored" none
     { app_name := "fraud", user_id := "bob", id := "s1", state := [],
       events := [] }
     [{ app_name := "fraud", user_id := "bob", id := "s2", state := [],
        events := [] }]
     rfl⟩

/-- C3: whenever the store's listing for (application, user) is empty,
`get_session` on the shim creates exactly one new session for that pair —
the store grows by exactly that one session — with empty state (and empty
event history), and returns it. -/
theorem get_session_creates_when_empty (ms : MemStore)
    (app user sid : String) (cfg : Option String)
    (h : (memService String).list_sessions app user ms =
      Except.ok (⟨[]⟩, ms)) :
    ∃ sess ms', memShim.get_session app user sid cfg ms =
        Except.ok (sess, ms') ∧
      ms'.sessions = ms.sessions ++ [sess] ∧
      sess.app_name = app ∧ sess.user_id = user ∧
      sess.state = [] ∧ sess.events = [] := by
  have hl : ms.sessions.filter (sameUser app user) = [] := by
    have h2 := h
    simp only [memService, Except.ok.injEq, Prod.mk.injEq,
      ListSessionsResponse.mk.injEq] at h2
    exact List.map_eq_nil_iff.mp h2.1
  rw [memShim_get_of_filter_nil sid cfg hl]
  exact ⟨_, _, rfl, rfl, rfl, rfl, rfl, rfl⟩

/-- Witness for C3 at the spec's "alice" scenario: no prior session;
`get_session` creates one session with empty state and returns it. -/
theorem get_session_creates_when_empty_witness :
    (memService String).list_sessions "fraud" "alice" aliceStore0 =
      Except.ok (⟨[]⟩, aliceStore0) ∧
    (∃ sess ms', memShim.get_session "fraud" "alice" "ignored" none
        aliceStore0 = Except.ok (sess, ms') ∧
      ms'.sessions = aliceStore0.sessions ++ [sess] ∧
      sess.app_name = "fraud" ∧ sess.user_id = "alice" ∧
      sess.state = [] ∧ sess.events = []) :=
  ⟨rfl,
   get_session_creates_when_empty aliceStore0 "fraud" "alice" "ignored"
     none rfl⟩

/-- C5: the result of the shim's `get_session` does not depend on the
caller-supplied `session_id`: for every proxied store, every store state
and every two `session_id` values, the two calls agree. -/
theorem get_session_ignores_session_id {σ χ : Type}
    (self : ImplicitSessionService σ χ) (app_name user_id : String)
    (sid1 sid2 : String) (config : Option χ) (st : σ) :
    self.get_session app_name user_id sid1 config st =
      self.get_session app_name user_id sid2 config st := rfl

/-- C6: for every argument tuple and every proxied store,
`create_session`, `list_sessions`, `delete_session` and `append_event` on
the shim produce exactly the result (value, store-state change, or error)
of the same operation invoked directly on the underlying store. -/
theorem pass_through_fidelity {σ χ : Type}
    (self : ImplicitSessionService σ χ) (app_name user_id : String)
    (state : Option (List (String × String))) (osid : Option String)
    (session_id : String) (sess : Session) (ev : Event) (st : σ) :
    self.create_session app_name user_id state osid st =
        self.proxied_service.create_session app_name user_id state osid st ∧
    self.list_sessions app_name user_id st =
        self.proxied_service.list_sessions app_name user_id st ∧
    self.delete_session app_name user_id session_id st =
        self.proxied_service.delete_session app_name user_id session_id st ∧
    self.append_event sess ev st =
        self.proxied_service.append_event sess ev st :=
  ⟨rfl, rfl, rfl, rfl⟩

/-- The session the in-memory store allocates for a `create_session` call
with no supplied state and no supplied identifier. -/
def createdSession (app user : String) (ms : MemStore) : Session :=
  { app_name := app, user_id := user, id := genId ms.next_id,
    state := [], events := [] }

/-- The store state after that `create_session` call. -/
def afterCreate (app user : String) (ms : MemStore) : MemStore :=
  { sessions := ms.sessions ++ [createdSession app user ms],
    next_id := ms.next_id + 1 }

lemma memService_create_eq (χ : Type) (app user : String) (ms : MemStore) :
    (memService χ).create_session app user none none ms =
      Except.ok (createdSession app user ms, afterCreate app user ms) := rfl

/-- C4: for every store state and any two calls in sequence (any
`session_id` and `config` arguments, no intervening deletion), both calls
to `get_session` on the shim succeed and return a session with the same
identifier: the first call's create or fetch leaves the store in a state
where the second call selects the same session. -/
theorem get_session_idempotent :
    ∀ (ms : MemStore) (app user sid1 sid2 : String)
      (cfg1 cfg2 : Option String),
      ∃ s1 ms1 s2 ms2,
        memShim.get_session app user sid1 cfg1 ms = Except.ok (s1, ms1) ∧
        memShim.get_session app user sid2 cfg2 ms1 = Except.ok (s2, ms2) ∧
        s2.id = s1.id := by
  intro ms app user sid1 sid2 cfg1 cfg2
  cases h : ms.sessions.filter (sameUser app user) with
  | cons f rest =>
      obtain ⟨g, hg, -, -, -, -⟩ := find?_first_listed h
      refine ⟨g, ms, g, ms, ?_, ?_, rfl⟩
      · rw [memShim_get_of_filter_cons sid1 cfg1 h]
        simp [memService, hg]
      · rw [memShim_get_of_filter_cons sid2 cfg2 h]
        simp [memService, hg]
  | nil =>
      refine ⟨createdSession app user ms, afterCreate app user ms,
              createdSession app user ms, afterCreate app user ms,
              ?_, ?_, rfl⟩
      · rw [memShim_get_of_filter_nil sid1 cfg1 h]
        exact memService_create_eq String app user ms
      · have h2 : (afterCreate app user ms).sessions.filter
            (sameUser app user) = [createdSession app user ms] := by
          show (ms.sessions ++ [createdSession app user ms]).filter
            (sameUser app user) = [createdSession app user ms]
          rw [List.filter_append, h]
          simp [sameUser, createdSession]
        rw [memShim_get_of_filter_cons sid2 cfg2 h2]
        have hfind : (afterCreate app user ms).sessions.find?
              (sameSession app user (createdSession app user ms).id) =
            some (createdSession app user ms) := by
          show (ms.sessions ++ [createdSession app user ms]).find?
              (sameSession app user (createdSession app user ms).id) =
            some (createdSession app user ms)
          rw [find?_append_right
            (find?_session_none h (createdSession app user ms).id)]
          exact List.find?_cons_of_pos _ (by simp [sameSession, createdSession])
        simp [memService, hfind]

/-- C7: every error raised by the underlying store surfaces unchanged
through the shim, with no retry, suppression or local recovery: an error
of the store's `list_sessions`, of the inner `get_session` fetch, or of
the fallback `create_session` is returned verbatim by the shim's
`get_session`, and each pass-through operation returns the store's error
verbatim.  This holds for every proxied store. -/
theorem store_errors_propagate_unchanged {σ χ : Type}
    (self : ImplicitSessionService σ χ) (app_name user_id session_id : String)
    (config : Option χ) (st : σ) (e : StoreError) :
    (self.proxied_service.list_sessions app_name user_id st =
        Except.error e →
      self.get_session app_name user_id session_id config st =
        Except.error e) ∧
    (∀ st1, self.proxied_service.list_sessions app_name user_id st =
        Except.ok (⟨[]⟩, st1) →
      self.proxied_service.create_session app_name user_id none none st1 =
        Except.error e →
      self.get_session app_name user_id session_id config st =
        Except.error e) ∧
    (∀ first rest st1,
      self.proxied_service.list_sessions app_name user_id st =
        Except.ok (⟨first :: rest⟩, st1) →
      self.proxied_service.get_session app_name user_id first.id config st1 =
        Except.error e →
      self.get_session app_name user_id session_id config st =
        Except.error e) ∧
    (∀ state osid,
      self.proxied_service.create_session app_name user_id state osid st =
        Except.error e →
      self.create_session app_name user_id state osid st =
        Except.error e) ∧
    (self.proxied_service.list_sessions app_name user_id st =
        Except.error e →
      self.list_sessions app_name user_id st = Except.error e) ∧
    (self.proxied_service.delete_session app_name user_id session_id st =
        Except.error e →
      self.delete_session app_name user_id session_id st =
        Except.error e) ∧
    (∀ sess ev, self.proxied_service.append_event sess ev st =
        Except.error e →
      self.append_event sess ev st = Except.error e) := by
  refine ⟨?_, ?_, ?_, fun state osid h => h, fun h => h, fun h => h,
    fun sess ev h => h⟩
  · intro h
    simp [ImplicitSessionService.get_session, h]
  · intro st1 h hc
    simp [ImplicitSessionService.get_session, h, hc]
  · intro first rest st1 h hg
    simp [ImplicitSessionService.get_session, h, hg]

/-- A store whose every operation fails with the same store-level
failure. -/
def failService : BaseSessionService Unit Unit where
  create_session := fun _ _ _ _ _ => .error (.storeFailure "unavailable")
  get_session := fun _ _ _ _ _ => .error (.storeFailure "unavailable")
  list_sessions := fun _ _ _ => .error (.storeFailure "unavailable")
  delete_session := fun _ _ _ _ => .error (.storeFailure "unavailable")
  append_event := fun _ _ _ => .error (.storeFailure "unavailable")

/-- Witness for C7: over a store whose `list_sessions` fails with a
store-level failure, the shim's `get_session` returns exactly that
failure. -/
theorem store_errors_propagate_unchanged_witness :
    (ImplicitSessionService.mk failService).proxied_service.list_sessions
        "fraud" "alice" () =
      Except.error (.storeFailure "unavailable") ∧
    (ImplicitSessionService.mk failService).get_session
        "fraud" "alice" "s" none () =
      Except.error (.storeFailure "unavailable") :=
  ⟨rfl,
   (store_errors_propagate_unchanged (ImplicitSessionService.mk failService)
     "fraud" "alice" "s" none () (.storeFailure "unavailable")).1 rfl⟩

/-- The store state after `delete_session (app, user, sid)`. -/
def afterDelete (app user sid : String) (ms : MemStore) : MemStore :=
  ⟨ms.sessions.filter (fun s => !(sameSession app user sid s)), ms.next_id⟩

lemma memService_delete_eq (χ : Type) (app user sid : String)
    (ms : MemStore) :
    (memService χ).delete_session app user sid ms =
      Except.ok ((), afterDelete app user sid ms) := rfl

lemma filter_after_delete {l : List Session} {app user : String}
    {sess : Session} (hfil : l.filter (sameUser app user) = [sess]) :
    (l.filter (fun s => !(sameSession app user sess.id s))).filter
      (sameUser app user) = [] := by
  refine List.filter_eq_nil_iff.mpr fun x hx hux => ?_
  obtain ⟨hx1, hnx⟩ := List.mem_filter.mp hx
  have hxf : x ∈ l.filter (sameUser app user) :=
    List.mem_filter.mpr ⟨hx1, hux⟩
  rw [hfil] at hxf
  have hxe : x = sess := List.mem_singleton.mp hxf
  subst hxe
  simp only [sameUser, Bool.and_eq_true, beq_iff_eq] at hux
  simp [sameSession, hux.1, hux.2] at hnx

lemma first_after_delete {l : List Session} {app user sid : String}
    {f : Session} {rest : List Session}
    (h : (l.filter (fun s => !(sameSession app user sid s))).filter
      (sameUser app user) = f :: rest) :
    f.id ≠ sid := by
  have hf : f ∈ (l.filter fun s => !(sameSession app user sid s)).filter
      (sameUser app user) := h ▸ List.mem_cons_self f rest
  obtain ⟨hmem, hu⟩ := List.mem_filter.mp hf
  obtain ⟨-, hnf⟩ := List.mem_filter.mp hmem
  simp only [sameUser, Bool.and_eq_true, beq_iff_eq] at hu
  intro hid
  simp [sameSession, hu.1, hu.2, hid] at hnf

/-- C8: deleting a user's session through the store and then calling
`get_session` on the shim returns a session whose identifier differs from
the deleted one — the deleted session is never resurrected — and when the
deleted session was the user's only session, the returned session is a
newly created one (empty state, empty history, appended to the store).
The freshness hypothesis states that the store's next generated
identifier is not already in use. -/
theorem delete_then_get_never_resurrects (ms : MemStore) (app user : String)
    (sid2 : String) (cfg : Option String) (sess : Session)
    (hfresh : ∀ s ∈ ms.sessions, s.id ≠ genId ms.next_id)
    (hmem : sess ∈ ms.sessions) :
    ∃ ms1 sess' ms2,
      (memService String).delete_session app user sess.id ms =
        Except.ok ((), ms1) ∧
      memShim.get_session app user sid2 cfg ms1 = Except.ok (sess', ms2) ∧
      sess'.id ≠ sess.id ∧
      (ms.sessions.filter (sameUser app user) = [sess] →
        sess'.state = [] ∧ sess'.events = [] ∧
        ms2.sessions = ms1.sessions ++ [sess']) := by
  refine ⟨afterDelete app user sess.id ms, ?_⟩
  cases h : (afterDelete app user sess.id ms).sessions.filter
      (sameUser app user) with
  | cons f rest =>
      have h' : (ms.sessions.filter
          (fun s => !(sameSession app user sess.id s))).filter
          (sameUser app user) = f :: rest := h
      have hne : f.id ≠ sess.id := first_after_delete h'
      obtain ⟨g, hg, -, -, hgid, -⟩ := find?_first_listed h
      refine ⟨g, afterDelete app user sess.id ms,
        memService_delete_eq String app user sess.id ms, ?_, ?_, ?_⟩
      · rw [memShim_get_of_filter_cons sid2 cfg h]
        simp [memService, hg]
      · rw [hgid]
        exact hne
      · intro hsingle
        exact ((List.cons_ne_nil f rest)
          (h'.symm.trans (filter_after_delete hsingle))).elim
  | nil =>
      refine ⟨createdSession app user (afterDelete app user sess.id ms),
        afterCreate app user (afterDelete app user sess.id ms),
        memService_delete_eq String app user sess.id ms, ?_, ?_,
        fun _ => ⟨rfl, rfl, rfl⟩⟩
      · rw [memShim_get_of_filter_nil sid2 cfg h]
        exact memService_create_eq String app user _
      · show genId ms.next_id ≠ sess.id
        exact fun he => hfresh sess hmem he.symm

/-- A store holding exactly one session, for (fraud, alice), with a
store-generated identifier. -/
def aliceStore1 : MemStore :=
  { sessions := [{ app_name := "fraud", user_id := "alice",
                   id := "session-0", state := [], events := [] }],
    next_id := 1 }

/-- Witness for C8: delete alice's only session, then `get_session`
returns a newly created session with a different identifier. -/
theorem delete_then_get_never_resurrects_witness :
    (∀ s ∈ aliceStore1.sessions, s.id ≠ genId aliceStore1.next_id) ∧
    ({ app_name := "fraud", user_id := "alice", id := "session-0",
       state := [], events := [] } : Session) ∈ aliceStore1.sessions ∧
    (∃ ms1 sess' ms2,
      (memService String).delete_session "fraud" "alice" "session-0"
          aliceStore1 = Except.ok ((), ms1) ∧
      memShim.get_session "fraud" "alice" "x" none ms1 =
        Except.ok (sess', ms2) ∧
      sess'.id ≠ "session-0" ∧
      (aliceStore1.sessions.filter (sameUser "fraud" "alice") =
          [{ app_name := "fraud", user_id := "alice", id := "session-0",
             state := [], events := [] }] →
        sess'.state = [] ∧ sess'.events = [] ∧
        ms2.sessions = ms1.sessions ++ [sess'])) :=
  ⟨by decide, by decide,
   delete_then_get_never_resurrects aliceStore1 "fraud" "alice" "x" none
     { app_name := "fraud", user_id := "alice", id := "session-0",
       state := [], events := [] }
     (by decide) (by decide)⟩

/-- C9: constructing the shim with a `proxied_service` argument that is
not a `BaseSessionService` instance raises `TypeError`; with a valid
instance, construction succeeds and that instance is stored as the
delegate for all subsequent operations. -/
theorem init_requires_base_session_service {σ χ : Type} :
    (∀ desc : String,
      ImplicitSessionService.init ((PyValue.other desc : PyValue σ χ)) =
        Except.error (.typeError
          "proxied_service must be an instance of BaseSessionService")) ∧
    (∀ svc : BaseSessionService σ χ,
      ∃ self, ImplicitSessionService.init (PyValue.service svc) =
          Except.ok self ∧
        self.proxied_service = svc) :=
  ⟨fun _ => rfl, fun svc => ⟨⟨svc⟩, rfl, rfl⟩⟩

/-! ### The publish_record tool (src/fraud-agent/agent/agent.py) -/

/-- The outcome of the underlying Pub/Sub publish call
(`publisher.publish(...)` / `future.result()`): either it completes, or
it raises some exception.  The network interaction itself is external, so
the outcome is passed to `publish_record` as an oracle argument. -/
inductive PublishOutcome where
  | success
  | failure (msg : String)
deriving DecidableEq, Repr

/-- The module-level `_publishers` cache: the set of topics for which a
publisher client has already been constructed. -/
structure PublisherCache where
  topics : List String
deriving DecidableEq, Repr

/-- `publish_record` from agent.py: look up or create the cached publisher
client for the topic, attempt the publish, and return an empty dictionary
both when the publish succeeds and when it raises (the exception is
caught, logged and swallowed). -/
def publish_record (topic : String) (json_payload : String)
    (outcome : PublishOutcome) (cache : PublisherCache) :
    (List (String × String)) × PublisherCache :=
  let cache1 : PublisherCache :=
    if cache.topics.contains topic then cache
    else ⟨cache.topics ++ [topic]⟩
  match outcome with
  | .success => ([], cache1)
  | .failure _ => ([], cache1)

/-- C10: `publish_record` returns the empty dictionary in all cases —
successful publish or publish raising any exception — so the caller
cannot distinguish a successful publish from a failed one by the return
value (nor by the publisher cache). -/
theorem publish_record_always_empty (topic json_payload : String)
    (outcome1 outcome2 : PublishOutcome) (cache : PublisherCache) :
    (publish_record topic json_payload outcome1 cache).1 = [] ∧
    publish_record topic json_payload outcome1 cache =
      publish_record topic json_payload outcome2 cache := by
  cases outcome1 <;> cases outcome2 <;> exact ⟨rfl, rfl⟩

end FraudAgent
